import Mathlib

/-!
Verification of the abyss repository sources against its specification.

The development shallowly embeds two programs:

* `src/Align/mergepairs.cc` — the paired-read merging utility
  (`bestBase`, `mergeReads`, `isGapless`, `filterAlignments` and the
  per-pair portion of `alignFiles`).
* `src/PairedDBG/abyss-paired-dbg.cc` — the multi-k assembly driver
  (`removeLowCoverageContigs`, the `erode:` label / `goto` loop of
  `assemble`, and the k-iteration of `main`).

The assembly subroutines (`AssemblyAlgorithms::erodeEnds`,
`popBubbles`, `wipeFlag`, ...) are declared and called by the driver but
their bodies are not part of this repository's sources; the driver is
embedded over an abstract record of those operations, and where a claim
depends on the behaviour of a missing routine, the routine is modelled
from the specification (marked `Modelled from the spec:` below).
-/

/-! ## Part 1: the read-merging utility (src/Align/mergepairs.cc) -/

/-- Modelled from the spec: the per-base complement used by the external
`reverseComplement` collaborator (K-mer Codec component); bases outside
{A,C,G,T} are left unchanged (they never match a proper base). -/
def complementBase (c : Char) : Char :=
  if c = 'A' then 'T'
  else if c = 'T' then 'A'
  else if c = 'C' then 'G'
  else if c = 'G' then 'C'
  else c

/-- Modelled from the spec: `reverseComplement` of a nucleotide sequence
(external collaborator of the merge utility). -/
def reverseComplement (s : List Char) : List Char :=
  (s.map complementBase).reverse

/-- A FASTQ record as consumed by `mergepairs.cc`: identifier, comment,
sequence and per-base quality string. -/
structure FastqRecord where
  id : String
  comment : String
  seq : List Char
  qual : List Char
deriving DecidableEq

/-- Modelled from the spec: the overlap alignment record produced by the
external aligner (spec section 3): start/end offsets of the overlap on the
two reads, match count and alignment length; percent identity is
match/length. -/
structure OverlapAlign where
  overlap_t_pos : Nat
  overlap_h_pos : Nat
  overlap_match : Nat
  len : Nat
deriving DecidableEq

/-- Modelled from the spec: percent identity of an overlap alignment,
`overlap_match / length`. -/
def OverlapAlign.pid (o : OverlapAlign) : Rat :=
  (o.overlap_match : Rat) / (o.len : Rat)

/-- `std::max` on quality characters, exactly as C++ defines it. -/
def stdMax (a b : Char) : Char := if a < b then b else a

/-- `std::min` on quality characters, exactly as C++ defines it. -/
def stdMin (a b : Char) : Char := if b < a then b else a

/-- `bestBase` from mergepairs.cc: `return qa > qb ? a : b;`. -/
def bestBase (a b qa qb : Char) : Char := if qb < qa then a else b

/-- `std::copy(src.begin(), src.end(), dst.begin() + start)`:
overwrite `dst` with `src` starting at index `start`. -/
def copyInto (dst : List Char) (start : Nat) : List Char → List Char
  | [] => dst
  | c :: cs => copyInto (dst.set start c) (start + 1) cs

/-- One iteration (index `i`) of the overlap-fixing loop of `mergeReads`:
positions `pos = |seq1| - ol + i` of the output sequence and quality are
rewritten from the two reads' bases at that overlap position. -/
def mergeStep (seq1 qual1 rc_seq2 rc_qual2 : List Char) (ol i : Nat)
    (acc : List Char × List Char) : List Char × List Char :=
  let pos := seq1.length - ol + i
  let a := seq1.getD pos 'N'
  let b := rc_seq2.getD i 'N'
  let qa := qual1.getD pos '#'
  let qb := rc_qual2.getD i '#'
  if a = b then (acc.1.set pos a, acc.2.set pos (stdMax qa qb))
  else (acc.1.set pos (bestBase a b qa qb), acc.2.set pos (stdMin qa qb))

/-- The overlap-fixing loop of `mergeReads`, iterations `0 ≤ i < n`
applied in ascending order. -/
def mergeLoop (seq1 qual1 rc_seq2 rc_qual2 : List Char) (ol : Nat) :
    Nat → List Char × List Char → List Char × List Char
  | 0, acc => acc
  | n + 1, acc =>
      mergeStep seq1 qual1 rc_seq2 rc_qual2 ol n
        (mergeLoop seq1 qual1 rc_seq2 rc_qual2 ol n acc)

/-- `mergeReads` from mergepairs.cc: read 2 is reverse-complemented (with
reversed qualities), the overhangs of the two reads are copied around the
overlap, and the overlap region is fixed base by base. -/
def mergeReads (overlap : OverlapAlign) (rec1 rec2 : FastqRecord) : FastqRecord :=
  let ol := overlap.len
  let seq1 := rec1.seq
  let qual1 := rec1.qual
  let rc_seq2 := reverseComplement rec2.seq
  let rc_qual2 := rec2.qual.reverse
  let out_len := overlap.overlap_t_pos + ol + rc_seq2.length - overlap.overlap_h_pos - 1
  let out_seq := copyInto (List.replicate out_len 'N') 0 (seq1.take overlap.overlap_t_pos)
  let out_seq := copyInto out_seq (overlap.overlap_t_pos + ol)
      (rc_seq2.drop (overlap.overlap_h_pos + 1))
  let out_qual := copyInto (List.replicate out_len '#') 0 (qual1.take overlap.overlap_t_pos)
  let out_qual := copyInto out_qual seq1.length (rc_qual2.drop ol)
  let fixed := mergeLoop seq1 qual1 rc_seq2 rc_qual2 ol ol (out_seq, out_qual)
  { id := rec1.id, comment := rec1.comment, seq := fixed.1, qual := fixed.2 }

/-- `isGapless` from mergepairs.cc. -/
def isGapless (o : OverlapAlign) (s : List Char) : Bool :=
  o.len == s.length - o.overlap_t_pos && o.len == o.overlap_h_pos + 1

/-- The per-pair statistics counters of mergepairs.cc. -/
structure Stats where
  total_reads : Nat
  merged_reads : Nat
  unmerged_reads : Nat
  no_alignment : Nat
  too_many_aligns : Nat
  low_matches : Nat
  has_indel : Nat
  pid_low : Nat
deriving DecidableEq

def initStats : Stats := ⟨0, 0, 0, 0, 0, 0, 0, 0⟩

/-- The filtering stage at which the candidate set first became empty in
`filterAlignments` (each stage owns one statistics counter). -/
inductive FilterStage where
  | no_alignment
  | low_matches
  | pid_low
  | has_indel
deriving DecidableEq

/-- `filterAlignments` from mergepairs.cc: discard alignments with too few
matches, then those below the identity threshold, then those with indels;
report the stage at which the candidate set first became empty (the stage
whose statistics counter is incremented), if any. -/
def filterAlignments (minMatches : Nat) (identity : Rat) (seq : List Char)
    (overlaps : List OverlapAlign) : List OverlapAlign × Option FilterStage :=
  if overlaps.isEmpty then (overlaps, some FilterStage.no_alignment)
  else
    let o1 := overlaps.filter fun o => !decide (o.overlap_match < minMatches)
    if o1.isEmpty then (o1, some FilterStage.low_matches)
    else
      let o2 := o1.filter fun o => !decide (o.pid < identity)
      if o2.isEmpty then (o2, some FilterStage.pid_low)
      else
        let o3 := o2.filter fun o => isGapless o seq
        if o3.isEmpty then (o3, some FilterStage.has_indel)
        else (o3, none)

/-- Increment the statistics counter owned by a filtering stage. -/
def bumpStage : Option FilterStage → Stats → Stats
  | none, s => s
  | some FilterStage.no_alignment, s => { s with no_alignment := s.no_alignment + 1 }
  | some FilterStage.low_matches, s => { s with low_matches := s.low_matches + 1 }
  | some FilterStage.pid_low, s => { s with pid_low := s.pid_low + 1 }
  | some FilterStage.has_indel, s => { s with has_indel := s.has_indel + 1 }

/-- Where one read pair ends up: the merged output file, or the two
unmerged output files. -/
inductive PairOutput where
  | merged (rec : FastqRecord)
  | unmerged (r1 r2 : FastqRecord)
deriving DecidableEq

def defaultOverlap : OverlapAlign := ⟨0, 0, 0, 0⟩

/-- The per-pair body of `alignFiles` from mergepairs.cc: filter the
aligner's candidate overlaps; if exactly one survives, merge and write to
the merged file, otherwise write both reads unchanged to the two unmerged
files; update the statistics counters as the code does. -/
def processPair (minMatches : Nat) (identity : Rat) (rec1 rec2 : FastqRecord)
    (overlaps : List OverlapAlign) (st : Stats) : PairOutput × Stats :=
  let st := { st with total_reads := st.total_reads + 1 }
  let fr := filterAlignments minMatches identity rec1.seq overlaps
  let st := bumpStage fr.2 st
  if fr.1.length = 1 then
    (PairOutput.merged (mergeReads (fr.1.headD defaultOverlap) rec1 rec2),
      { st with merged_reads := st.merged_reads + 1 })
  else
    let st := if 1 < fr.1.length then
        { st with too_many_aligns := st.too_many_aligns + 1 } else st
    (PairOutput.unmerged rec1 rec2,
      { st with unmerged_reads := st.unmerged_reads + 1 })

/-! ## Part 2: the multi-k assembly driver (src/PairedDBG/abyss-paired-dbg.cc) -/

/-- `(unsigned)-1`, the automatic ("auto from coverage histogram")
sentinel stored into `opt::erode` and `opt::erodeStrand` by the driver. -/
def UINT_MAX : Nat := 4294967295

/-- The option state consumed by the driver (spec section 6 enumerates the
configuration: kmerSize, kMin/kMax/kStep, erode, erodeStrand, coverage,
trimLen, bubbleLen, plus the file lists).  `coverage` is a float in the
code and is modelled as a rational; only its sign and the sentinels
`-1` / `0` matter to the driver. -/
structure Opt where
  erode : Nat
  erodeStrand : Nat
  coverage : Rat
  trimLen : Nat
  bubbleLen : Nat
  kmerSize : Nat
  contigsPath : String
  inFiles : List String
  kMin : Nat
  kMax : Nat
  kStep : Nat
deriving DecidableEq

/-- Pipeline pass events, used to record the order in which the driver's
`assemble` runs its passes. -/
inductive Event where
  | load (path : String)
  | genAdjacency
  | erodeTips
  | trim
  | pruneCoverage
  | wipeMarks
  | popBubblesEv
  | markAmbiguousEv
  | extract
deriving DecidableEq

/-- The driver's fatal conditions: `exit(EXIT_FAILURE)` after "no usable
sequence" or "no contigs assembled", and the `assert` that a second
`erodeEnds` sweep removes nothing. -/
inductive AsmError where
  | noUsableSequence
  | noContigsAssembled
  | erodeAssertFailed
deriving DecidableEq

/-- The `AssemblyAlgorithms` / `SequenceCollectionHash` operations invoked
by the driver.  Their bodies are not part of this repository's sources, so
the driver is embedded over this abstract record; `covParams` models
`setCoverageParameters`, which (per the spec) only fills in the
automatic coverage/erosion thresholds from the coverage histogram. -/
structure AssemblyOps (G : Type) where
  emptyGraph : G
  loadSequences : String → G → G
  size : G → Nat
  isEmpty : G → Bool
  setDeletedKey : G → G
  shrink : G → G
  covParams : G → Opt → Rat × Nat × Nat
  generateAdjacency : Opt → G → G
  erodeEnds : Opt → G → G × Nat
  performTrim : Opt → G → G
  cleanup : G → G
  markAmbiguous : Opt → G → G
  assembleNoWrite : Opt → G → G × Nat
  splitAmbiguous : Opt → G → G
  popBubbles : Opt → G → G × Nat
  wipeMarkFlags : G → G
  assembleWrite : Opt → String → G → G × Nat

/-- `removeLowCoverageContigs` from abyss-paired-dbg.cc: mark ambiguous
junctions, assemble (erasing low-coverage contigs), split ambiguous
junctions again, then zero the coverage threshold (`opt::coverage = 0`). -/
def removeLowCoverageContigs {G : Type} (A : AssemblyOps G) (opt : Opt) (g : G) :
    G × Opt :=
  let g := A.markAmbiguous opt g
  let g := (A.assembleNoWrite opt g).1
  let g := A.splitAmbiguous opt g
  (g, { opt with coverage := 0 })

/-- The erosion stage at the `erode:` label of `assemble`: when the erosion
threshold is positive, run `erodeEnds`, then `assert` that a second
`erodeEnds` call removes zero k-mer, then clean up. -/
def erodeSection {G : Type} (A : AssemblyOps G) (opt : Opt) (g : G) :
    Except AsmError (G × List Event) :=
  if 0 < opt.erode then
    let g1 := (A.erodeEnds opt g).1
    if (A.erodeEnds opt g1).2 = 0 then
      Except.ok (A.cleanup (A.erodeEnds opt g1).1, [Event.erodeTips])
    else Except.error AsmError.erodeAssertFailed
  else Except.ok (g, [])

/-- The `erode:` label / `goto erode` loop of `assemble`: erosion, then
trimming and cleanup; when the coverage threshold is positive, prune
low-coverage contigs (which zeroes the threshold), wipe the traversal mark
flags, clean up and jump back to the erosion label. -/
def erodeLoop {G : Type} (A : AssemblyOps G) (opt : Opt) (g : G) :
    Except AsmError (Opt × G × List Event) :=
  match erodeSection A opt g with
  | Except.error e => Except.error e
  | Except.ok gevs =>
    let g2 := A.cleanup (A.performTrim opt gevs.1)
    if h : 0 < opt.coverage then
      let pr := removeLowCoverageContigs A opt g2
      let g4 := A.cleanup (A.wipeMarkFlags pr.1)
      match erodeLoop A pr.2 g4 with
      | Except.error e => Except.error e
      | Except.ok r =>
        Except.ok (r.1, r.2.1,
          gevs.2 ++ [Event.trim, Event.pruneCoverage, Event.wipeMarks] ++ r.2.2)
    else Except.ok (opt, g2, gevs.2 ++ [Event.trim])
termination_by (if 0 < opt.coverage then 1 else 0)
decreasing_by
  simp [removeLowCoverageContigs, h]

/-- The graph-loading prefix of `assemble`: an optional seed file
(`pathIn`, the previous k's contigs) loaded first, then every raw read
file of `opt::inFiles`. -/
def loadPhase {G : Type} (A : AssemblyOps G) (pathIn : String)
    (inFiles : List String) : G :=
  let g := A.emptyGraph
  let g := if pathIn = "" then g else A.loadSequences pathIn g
  inFiles.foldl (fun acc f => A.loadSequences f acc) g

/-- The list of files `assemble` loads, in order. -/
def loadOrder (pathIn : String) (inFiles : List String) : List String :=
  (if pathIn = "" then [] else [pathIn]) ++ inFiles

/-- The option state right after `setCoverageParameters`, i.e. at the
first arrival at the `erode:` label of `assemble`. -/
def optAfterCov {G : Type} (A : AssemblyOps G) (opt : Opt) (pathIn : String) : Opt :=
  let g0 := A.shrink (A.setDeletedKey (loadPhase A pathIn opt.inFiles))
  let cp := A.covParams g0 opt
  { opt with coverage := cp.1, erode := cp.2.1, erodeStrand := cp.2.2 }

/-- The driver's `assemble(pathIn, pathOut)`: load, shrink, fail if the
store is empty, set the coverage parameters, generate adjacency, run the
erosion/trimming/coverage loop, pop bubbles when the bubble length is
positive, mark ambiguous nodes, extract contigs, and fail if zero contigs
were assembled.  The returned event list records the pass order. -/
def assembleK {G : Type} (A : AssemblyOps G) (opt : Opt)
    (pathIn pathOut : String) : Except AsmError (Opt × G × Nat × List Event) :=
  let g0 := A.shrink (A.setDeletedKey (loadPhase A pathIn opt.inFiles))
  if A.isEmpty g0 then Except.error AsmError.noUsableSequence
  else
    let optC := optAfterCov A opt pathIn
    let gAdj := A.generateAdjacency optC g0
    match erodeLoop A optC gAdj with
    | Except.error e => Except.error e
    | Except.ok r1 =>
      let opt1 := r1.1
      let pb := if 0 < opt1.bubbleLen then
          ((A.popBubbles opt1 r1.2.1).1, [Event.popBubblesEv])
        else (r1.2.1, ([] : List Event))
      let g3 := A.markAmbiguous opt1 pb.1
      let r := A.assembleWrite opt1 pathOut g3
      if r.2 = 0 then Except.error AsmError.noContigsAssembled
      else Except.ok (opt1, r.1, r.2,
        (loadOrder pathIn opt.inFiles).map Event.load
          ++ Event.genAdjacency :: r1.2.2
          ++ pb.2 ++ [Event.markAmbiguousEv, Event.extract])

/-- The k values visited by `main`'s loop
`for (k = kMin; k <= kMax; k += kStep)`. -/
def kValues (kMin kMax kStep : Nat) : List Nat :=
  if kMin ≤ kMax ∧ 0 < kStep then
    (List.range ((kMax - kMin) / kStep + 1)).map (fun i => kMin + i * kStep)
  else []

/-- The per-iteration option update of `main`: `opt::kmerSize = k`, and for
every k after the first, reset the iteration-controlled parameters to
their k-dependent defaults (erode and erodeStrand to the automatic
sentinel `(unsigned)-1`, coverage to the automatic value `-1`, trimLen to
`k`, bubbleLen to `3*k`). -/
def optAtK (opt : Opt) (k : Nat) : Opt :=
  let o := { opt with kmerSize := k }
  if opt.kMin < k then
    { o with
      erode := UINT_MAX
      erodeStrand := UINT_MAX
      coverage := -1
      trimLen := k
      bubbleLen := 3 * k }
  else o

/-- The seed-input path of iteration k: empty for the first k, and the
previous iteration's contig file `contigs-k<k-kStep>.fa` afterwards. -/
def pathInAtK (kMin kStep k : Nat) : String :=
  if kMin < k then "contigs-k" ++ toString (k - kStep) ++ ".fa" else ""

/-- The contig-output path of iteration k: `contigs-k<k>.fa` before the
last k, and the configured contigs path at the last k. -/
def pathOutAtK (kMax : Nat) (contigsPath : String) (k : Nat) : String :=
  if k < kMax then "contigs-k" ++ toString k ++ ".fa" else contigsPath

/-- The k-iteration of `main`: each iteration resets the options, computes
the input/output paths and runs `assemble`; a fatal error terminates the
whole run (`exit(EXIT_FAILURE)`), reported with the k at which it
happened, and no further k is assembled. -/
def runIters {G : Type} (A : AssemblyOps G) :
    List Nat → Opt → List (Nat × Nat) × Option (Nat × AsmError)
  | [], _ => ([], none)
  | k :: ks, opt =>
    let optK := optAtK opt k
    match assembleK A optK (pathInAtK opt.kMin opt.kStep k)
        (pathOutAtK opt.kMax opt.contigsPath k) with
    | Except.error e => ([], some (k, e))
    | Except.ok r =>
      let rest := runIters A ks r.1
      ((k, r.2.2.1) :: rest.1, rest.2)

/-- `main` of abyss-paired-dbg.cc, minus option parsing and telemetry. -/
def runMain {G : Type} (A : AssemblyOps G) (opt0 : Opt) :
    List (Nat × Nat) × Option (Nat × AsmError) :=
  runIters A (kValues opt0.kMin opt0.kMax opt0.kStep) opt0

/-! ## Part 3: spec-modelled graph operations

The bodies of `AssemblyAlgorithms::erodeEnds`, `popBubbles` and
`SequenceCollection::wipeFlag` are not under src/; the definitions below
model them from the specification (sections 4.2, 4.4.1 and 4.4.4). -/

/-- A graph node record as described by the spec (section 3): coverage
counter plus the two transient traversal mark bits. -/
structure ModelNode where
  id : Nat
  coverage : Nat
  markSense : Bool
  markAntisense : Bool
deriving DecidableEq

/-- Modelled from the spec: one erosion sweep (`erodeEnds` is not under
src/).  A sweep removes every node currently eligible for erosion — a
terminal (tip) node whose coverage is below the erosion threshold — and
reports how many it removed.  Eligibility is re-derived from the current
graph on every sweep (`elig g v`), which models the spec's "re-deriving
adjacency after each removal wave"; the fixed-point theorems hold for
every eligibility rule. -/
def erodeSweep (elig : List ModelNode → ModelNode → Bool)
    (g : List ModelNode) : List ModelNode × Nat :=
  (g.filter (fun v => !elig g v), (g.filter (fun v => elig g v)).length)

/-- Modelled from the spec: `erodeEnds` (not under src/) — repeat erosion
sweeps until a full sweep removes zero nodes, returning the final graph
and the total number of nodes removed. -/
def erodeEndsModel (elig : List ModelNode → ModelNode → Bool)
    (g : List ModelNode) : List ModelNode × Nat :=
  if h : (erodeSweep elig g).2 = 0 then (g, 0)
  else
    let r := erodeEndsModel elig (erodeSweep elig g).1
    (r.1, (erodeSweep elig g).2 + r.2)
termination_by g.length
decreasing_by
  simp only [erodeSweep] at h ⊢
  have key : ∀ l : List ModelNode, (l.filter (fun v => elig g v)).length
      + (l.filter (fun v => !elig g v)).length = l.length := by
    intro l
    induction l with
    | nil => simp
    | cons a t ih =>
      by_cases ha : elig g a <;> simp [List.filter_cons, ha] <;> omega
  have hg := key g
  omega

/-- Modelled from the spec: `wipeFlag(SF_MARK_SENSE | SF_MARK_ANTISENSE)`
(`SequenceCollection::wipeFlag` is not under src/) — clear both traversal
mark bits on every node of the store. -/
def wipeMarksModel (g : List ModelNode) : List ModelNode :=
  g.map (fun v => { v with markSense := false, markAntisense := false })

/-- Modelled from the spec: a bubble — a pair of alternate paths between
the same branch/merge node pair within the length bound, as detected by
`popBubbles` (not under src/). -/
structure Bubble where
  path1 : List ModelNode
  path2 : List ModelNode

/-- Aggregate coverage of one path of a bubble. -/
def pathCoverage (p : List ModelNode) : Nat :=
  (p.map ModelNode.coverage).sum

/-- Modelled from the spec: the path a popped bubble loses — the one with
strictly lower aggregate coverage; an equal-coverage tie is broken by a
fixed deterministic rule (the second path is removed). -/
def loserPath (b : Bubble) : List ModelNode :=
  if pathCoverage b.path1 < pathCoverage b.path2 then b.path1 else b.path2

/-- Modelled from the spec: popping one bubble removes the nodes of its
losing path from the graph. -/
def popBubble (g : List ModelNode) (b : Bubble) : List ModelNode :=
  g.filter (fun v => !(loserPath b).contains v)

/-- Modelled from the spec: `popBubbles` (not under src/) — pop every
detected bubble and record the number popped. -/
def popBubblesModel (g : List ModelNode) (bs : List Bubble) :
    List ModelNode × Nat :=
  (bs.foldl popBubble g, bs.length)

/-- The Boolean trace check for claim C7: every coverage-pruning event is
immediately followed by a mark-wiping event. -/
def pruneThenWipe : List Event → Bool
  | [] => true
  | Event.pruneCoverage :: Event.wipeMarks :: rest =>
      pruneThenWipe (Event.wipeMarks :: rest)
  | Event.pruneCoverage :: _ => false
  | _ :: rest => pruneThenWipe rest

/-! ## Part 4: concrete instances used to exercise the embedding -/

/-- A trivial instantiation of the assembly operations over a unit graph
store: the store always holds one node, erosion removes nothing, and one
contig is always assembled. -/
def unitOps : AssemblyOps Unit where
  emptyGraph := ()
  loadSequences := fun _ _ => ()
  size := fun _ => 1
  isEmpty := fun _ => false
  setDeletedKey := fun g => g
  shrink := fun g => g
  covParams := fun _ o => (o.coverage, o.erode, o.erodeStrand)
  generateAdjacency := fun _ g => g
  erodeEnds := fun _ g => (g, 0)
  performTrim := fun _ g => g
  cleanup := fun g => g
  markAmbiguous := fun _ g => g
  assembleNoWrite := fun _ g => (g, 1)
  splitAmbiguous := fun _ g => g
  popBubbles := fun _ g => (g, 0)
  wipeMarkFlags := fun g => g
  assembleWrite := fun _ _ g => (g, 1)

/-- The trivial operations with an always-empty store (no usable k-mers
survive loading and shrinking). -/
def emptyOps : AssemblyOps Unit :=
  { unitOps with isEmpty := fun _ => true }

/-- The assembly operations instantiated over the node-list graph model,
with `erodeEnds` given by the spec-modelled sweep-to-fixed-point erosion
(a node is eligible while its coverage is below the erosion threshold)
and `wipeFlag` by the spec-modelled mark wipe. -/
def listOps : AssemblyOps (List ModelNode) where
  emptyGraph := []
  loadSequences := fun _ g => g
  size := fun g => g.length
  isEmpty := fun g => g.isEmpty
  setDeletedKey := fun g => g
  shrink := fun g => g
  covParams := fun _ o => (o.coverage, o.erode, o.erodeStrand)
  generateAdjacency := fun _ g => g
  erodeEnds := fun o g => erodeEndsModel (fun _ v => decide (v.coverage < o.erode)) g
  performTrim := fun _ g => g
  cleanup := fun g => g
  markAmbiguous := fun _ g => g
  assembleNoWrite := fun _ g => (g, 1)
  splitAmbiguous := fun _ g => g
  popBubbles := fun _ g => popBubblesModel g []
  wipeMarkFlags := wipeMarksModel
  assembleWrite := fun _ _ g => (g, 1)

/-- A concrete option state used to exercise the driver model. -/
def optW : Opt where
  erode := 1
  erodeStrand := 1
  coverage := 1
  trimLen := 10
  bubbleLen := 30
  kmerSize := 10
  contigsPath := "final-contigs.fa"
  inFiles := ["reads.fa"]
  kMin := 10
  kMax := 20
  kStep := 5

/-- The events emitted by one erosion stage: a tip-erosion pass exactly
when the erosion threshold is positive. -/
def eseg (opt : Opt) : List Event :=
  if 0 < opt.erode then [Event.erodeTips] else []

/-! ## Part 5: helper lemmas -/

theorem erodeSection_events {G : Type} (A : AssemblyOps G) (opt : Opt) (g : G)
    (p : G × List Event) (h : erodeSection A opt g = Except.ok p) :
    p.2 = eseg opt := by
  unfold erodeSection at h
  by_cases he : 0 < opt.erode
  · simp only [if_pos he] at h
    by_cases hz : (A.erodeEnds opt (A.erodeEnds opt g).1).2 = 0
    · simp only [if_pos hz] at h
      cases h
      simp [eseg, he]
    · simp [if_neg hz] at h
  · simp only [if_neg he] at h
    cases h
    simp [eseg, he]

theorem erodeLoop_eq_err {G : Type} (A : AssemblyOps G) (opt : Opt) (g : G)
    (e : AsmError) (hsec : erodeSection A opt g = Except.error e) :
    erodeLoop A opt g = Except.error e := by
  rw [erodeLoop, hsec]

theorem erodeLoop_eq_nocov {G : Type} (A : AssemblyOps G) (opt : Opt) (g : G)
    (hc : ¬ 0 < opt.coverage) (p : G × List Event)
    (hsec : erodeSection A opt g = Except.ok p) :
    erodeLoop A opt g =
      Except.ok (opt, A.cleanup (A.performTrim opt p.1), p.2 ++ [Event.trim]) := by
  rw [erodeLoop, hsec]
  simp [hc]

theorem erodeLoop_eq_cov {G : Type} (A : AssemblyOps G) (opt : Opt) (g : G)
    (hc : 0 < opt.coverage) (p : G × List Event)
    (hsec : erodeSection A opt g = Except.ok p) :
    erodeLoop A opt g =
      match erodeLoop A (removeLowCoverageContigs A opt (A.cleanup (A.performTrim opt p.1))).2
          (A.cleanup (A.wipeMarkFlags
            (removeLowCoverageContigs A opt (A.cleanup (A.performTrim opt p.1))).1)) with
      | Except.error e => Except.error e
      | Except.ok r =>
        Except.ok (r.1, r.2.1,
          p.2 ++ [Event.trim, Event.pruneCoverage, Event.wipeMarks] ++ r.2.2) := by
  rw [erodeLoop, hsec]
  simp [hc]

theorem removeLowCoverageContigs_opt {G : Type} (A : AssemblyOps G) (opt : Opt)
    (g : G) : (removeLowCoverageContigs A opt g).2 = { opt with coverage := 0 } := rfl

theorem erodeLoop_shape {G : Type} (A : AssemblyOps G) (opt : Opt) (g : G)
    (opt1 : Opt) (g1 : G) (evs : List Event)
    (hok : erodeLoop A opt g = Except.ok (opt1, g1, evs)) :
    (¬ 0 < opt.coverage ∧ opt1 = opt ∧ evs = eseg opt ++ [Event.trim]) ∨
    (0 < opt.coverage ∧ opt1 = { opt with coverage := 0 } ∧
      evs = eseg opt ++ [Event.trim, Event.pruneCoverage, Event.wipeMarks]
        ++ eseg opt ++ [Event.trim]) := by
  cases hsec : erodeSection A opt g with
  | error e =>
    rw [erodeLoop_eq_err A opt g e hsec] at hok
    cases hok
  | ok p =>
    have hev := erodeSection_events A opt g p hsec
    by_cases hc : 0 < opt.coverage
    · rw [erodeLoop_eq_cov A opt g hc p hsec] at hok
      rw [removeLowCoverageContigs_opt] at hok
      cases hsec2 : erodeSection A { opt with coverage := 0 }
          (A.cleanup (A.wipeMarkFlags
            (removeLowCoverageContigs A opt (A.cleanup (A.performTrim opt p.1))).1)) with
      | error e =>
        rw [erodeLoop_eq_err _ _ _ e hsec2] at hok
        cases hok
      | ok q =>
        have hev2 := erodeSection_events _ _ _ q hsec2
        have hcz : ¬ (0 : Rat) < ({ opt with coverage := 0 } : Opt).coverage := by
          simp
        rw [erodeLoop_eq_nocov A { opt with coverage := 0 } _ hcz q hsec2] at hok
        simp only [] at hok
        cases hok
        right
        refine ⟨hc, rfl, ?_⟩
        have heq : eseg { opt with coverage := 0 } = eseg opt := by
          simp [eseg]
        rw [hev, hev2, heq]
        simp
    · rw [erodeLoop_eq_nocov A opt g hc p hsec] at hok
      cases hok
      left
      exact ⟨hc, rfl, by rw [hev]⟩

theorem assembleK_trace {G : Type} (A : AssemblyOps G) (opt : Opt)
    (pathIn pathOut : String) (opt1 : Opt) (gg : G) (n : Nat) (evs : List Event)
    (hok : assembleK A opt pathIn pathOut = Except.ok (opt1, gg, n, evs)) :
    ∃ loopEvs bubbleEvs,
      evs = (loadOrder pathIn opt.inFiles).map Event.load
          ++ [Event.genAdjacency] ++ loopEvs ++ bubbleEvs
          ++ [Event.markAmbiguousEv, Event.extract] ∧
      (loopEvs = eseg (optAfterCov A opt pathIn) ++ [Event.trim] ∨
        loopEvs = eseg (optAfterCov A opt pathIn)
          ++ [Event.trim, Event.pruneCoverage, Event.wipeMarks]
          ++ eseg (optAfterCov A opt pathIn) ++ [Event.trim]) ∧
      bubbleEvs = (if 0 < opt1.bubbleLen then [Event.popBubblesEv] else []) ∧
      opt1.bubbleLen = opt.bubbleLen ∧
      (Event.pruneCoverage ∈ loopEvs ↔ 0 < (optAfterCov A opt pathIn).coverage) ∧
      n ≠ 0 := by
  unfold assembleK at hok
  by_cases hemp : A.isEmpty (A.shrink (A.setDeletedKey (loadPhase A pathIn opt.inFiles))) = true
  · rw [if_pos hemp] at hok
    cases hok
  · rw [if_neg hemp] at hok
    dsimp only [] at hok
    cases hloop : erodeLoop A (optAfterCov A opt pathIn)
        (A.generateAdjacency (optAfterCov A opt pathIn)
          (A.shrink (A.setDeletedKey (loadPhase A pathIn opt.inFiles)))) with
    | error e =>
      rw [hloop] at hok
      cases hok
    | ok r1 =>
      rw [hloop] at hok
      dsimp only [] at hok
      have hshape := erodeLoop_shape A (optAfterCov A opt pathIn) _ r1.1 r1.2.1 r1.2.2
        (by rw [hloop])
      by_cases hnz : (A.assembleWrite r1.1 pathOut
          (A.markAmbiguous r1.1
            (if 0 < r1.1.bubbleLen then
                ((A.popBubbles r1.1 r1.2.1).1, [Event.popBubblesEv])
              else (r1.2.1, ([] : List Event))).1)).2 = 0
      · rw [if_pos hnz] at hok
        cases hok
      · rw [if_neg hnz] at hok
        cases hok
        refine ⟨r1.2.2,
          (if 0 < r1.1.bubbleLen then [Event.popBubblesEv] else []), ?_, ?_, ?_, ?_, ?_, hnz⟩
        · by_cases hb : 0 < r1.1.bubbleLen <;> simp [hb]
        · rcases hshape with ⟨_, _, hev⟩ | ⟨_, _, hev⟩
          · left; exact hev
          · right; simpa using hev
        · rfl
        · rcases hshape with ⟨_, hopt, _⟩ | ⟨_, hopt, _⟩ <;> rw [hopt] <;>
            simp [optAfterCov]
        · rcases hshape with ⟨hc, _, hev⟩ | ⟨hc, _, hev⟩
          · rw [hev]
            simp only [List.mem_append]
            constructor
            · intro hmem
              rcases hmem with hmem | hmem
              · exfalso
                unfold eseg at hmem
                by_cases he : 0 < (optAfterCov A opt pathIn).erode <;>
                  simp [he] at hmem
              · simp at hmem
            · intro hcv
              exact absurd hcv hc
          · constructor
            · intro _
              exact hc
            · intro _
              rw [hev]
              simp

theorem unit_erodeSection_eval (o : Opt) (ho : 0 < o.erode) :
    erodeSection unitOps o () = Except.ok ((), [Event.erodeTips]) := by
  unfold erodeSection
  rw [if_pos ho]
  simp [unitOps]

theorem unit_erodeLoop_eval (o : Opt) (ho : 0 < o.erode) (hc : 0 < o.coverage) :
    erodeLoop unitOps o () =
      Except.ok ({ o with coverage := 0 }, (),
        [Event.erodeTips, Event.trim, Event.pruneCoverage, Event.wipeMarks,
          Event.erodeTips, Event.trim]) := by
  have hz : ¬ (0 : Rat) < ({ o with coverage := 0 } : Opt).coverage := by simp
  have hinner := erodeLoop_eq_nocov unitOps { o with coverage := 0 } ()
    hz ((), [Event.erodeTips]) (unit_erodeSection_eval _ ho)
  have houter := erodeLoop_eq_cov unitOps o () hc ((), [Event.erodeTips])
    (unit_erodeSection_eval o ho)
  rw [houter]
  rw [removeLowCoverageContigs_opt]
  have : (removeLowCoverageContigs unitOps o (unitOps.cleanup (unitOps.performTrim o ()))).1 = () := rfl
  rw [this, hinner]
  simp [unitOps]

theorem unit_optAfterCov : optAfterCov unitOps optW "" = optW := rfl

theorem unit_assembleK_eval :
    assembleK unitOps optW "" "out.fa" =
      Except.ok ({ optW with coverage := 0 }, (), 1,
        [Event.load "reads.fa", Event.genAdjacency, Event.erodeTips, Event.trim,
          Event.pruneCoverage, Event.wipeMarks, Event.erodeTips, Event.trim,
          Event.popBubblesEv, Event.markAmbiguousEv, Event.extract]) := by
  unfold assembleK
  rw [if_neg (by simp [unitOps])]
  rw [unit_optAfterCov]
  dsimp only []
  have hg : unitOps.generateAdjacency optW
      (unitOps.shrink (unitOps.setDeletedKey (loadPhase unitOps "" optW.inFiles))) = () := rfl
  rw [hg]
  rw [unit_erodeLoop_eval optW (by norm_num [optW]) (by norm_num [optW])]
  simp [unitOps, optW, loadOrder]

theorem count_load_map_pop (xs : List String) :
    (xs.map Event.load).count Event.popBubblesEv = 0 := by
  induction xs with
  | nil => rfl
  | cons a t ih => simp [List.count_cons, ih]

theorem count_eseg_pop (o : Opt) : (eseg o).count Event.popBubblesEv = 0 := by
  unfold eseg
  by_cases h : 0 < o.erode <;> simp [h]

/-- Claim C8: within one `assemble()` run for a given k the passes occur in
the fixed order load, adjacency generation, then the erosion (only when the
erosion threshold is positive) / trimming / coverage-pruning loop, then
bubble popping (exactly when bubbleLen is positive), then ambiguity marking
and contig extraction; bubble popping occurs at most once per k and
strictly after the erosion/trimming/coverage loop has stabilized. -/
theorem C8_pass_order {G : Type} (A : AssemblyOps G) (opt : Opt)
    (pathIn pathOut : String) (opt1 : Opt) (gg : G) (n : Nat) (evs : List Event)
    (hok : assembleK A opt pathIn pathOut = Except.ok (opt1, gg, n, evs)) :
    ∃ loopEvs bubbleEvs,
      evs = (loadOrder pathIn opt.inFiles).map Event.load
          ++ [Event.genAdjacency] ++ loopEvs ++ bubbleEvs
          ++ [Event.markAmbiguousEv, Event.extract] ∧
      (loopEvs = eseg (optAfterCov A opt pathIn) ++ [Event.trim] ∨
        loopEvs = eseg (optAfterCov A opt pathIn)
          ++ [Event.trim, Event.pruneCoverage, Event.wipeMarks]
          ++ eseg (optAfterCov A opt pathIn) ++ [Event.trim]) ∧
      bubbleEvs = (if 0 < opt1.bubbleLen then [Event.popBubblesEv] else []) ∧
      opt1.bubbleLen = opt.bubbleLen ∧
      evs.count Event.popBubblesEv ≤ 1 := by
  obtain ⟨L, B, he, hl, hb, hbl, _, _⟩ :=
    assembleK_trace A opt pathIn pathOut opt1 gg n evs hok
  refine ⟨L, B, he, hl, hb, hbl, ?_⟩
  rw [he, hb]
  have hLc : L.count Event.popBubblesEv = 0 := by
    rcases hl with h | h <;> rw [h] <;>
      simp [List.count_append, count_eseg_pop, List.count_cons]
  by_cases hbb : 0 < opt1.bubbleLen <;>
    simp [hbb, List.count_append, count_load_map_pop, count_eseg_pop,
      List.count_cons, hLc]

/-- Witness for C8 at a concrete run of the driver model. -/
theorem C8_pass_order_witness :
    ∃ loopEvs bubbleEvs,
      ([Event.load "reads.fa", Event.genAdjacency, Event.erodeTips, Event.trim,
        Event.pruneCoverage, Event.wipeMarks, Event.erodeTips, Event.trim,
        Event.popBubblesEv, Event.markAmbiguousEv, Event.extract] : List Event) =
        (loadOrder "" optW.inFiles).map Event.load
          ++ [Event.genAdjacency] ++ loopEvs ++ bubbleEvs
          ++ [Event.markAmbiguousEv, Event.extract] ∧
      (loopEvs = eseg (optAfterCov unitOps optW "") ++ [Event.trim] ∨
        loopEvs = eseg (optAfterCov unitOps optW "")
          ++ [Event.trim, Event.pruneCoverage, Event.wipeMarks]
          ++ eseg (optAfterCov unitOps optW "") ++ [Event.trim]) ∧
      bubbleEvs = (if 0 < ({ optW with coverage := 0 } : Opt).bubbleLen
          then [Event.popBubblesEv] else []) ∧
      ({ optW with coverage := 0 } : Opt).bubbleLen = optW.bubbleLen ∧
      ([Event.load "reads.fa", Event.genAdjacency, Event.erodeTips, Event.trim,
        Event.pruneCoverage, Event.wipeMarks, Event.erodeTips, Event.trim,
        Event.popBubblesEv, Event.markAmbiguousEv, Event.extract] : List Event).count
          Event.popBubblesEv ≤ 1 :=
  C8_pass_order unitOps optW "" "out.fa" { optW with coverage := 0 } () 1
    [Event.load "reads.fa", Event.genAdjacency, Event.erodeTips, Event.trim,
      Event.pruneCoverage, Event.wipeMarks, Event.erodeTips, Event.trim,
      Event.popBubblesEv, Event.markAmbiguousEv, Event.extract]
    unit_assembleK_eval

theorem not_mem_load_map (xs : List String) (e : Event)
    (h : ∀ p, e ≠ Event.load p) : e ∉ xs.map Event.load := by
  intro hmem
  rcases List.mem_map.mp hmem with ⟨p, _, hp⟩
  exact h p hp.symm

theorem not_mem_eseg (o : Opt) (e : Event) (h : e ≠ Event.erodeTips) :
    e ∉ eseg o := by
  unfold eseg
  by_cases he : 0 < o.erode <;> simp [he, h]

/-- Claim C2: within one `assemble()` run for a given k the coverage-based
pruning pass executes at most once: `removeLowCoverageContigs` zeroes the
coverage threshold (ratchet), the pipeline restarts from the erosion
stage (a trimming pass follows the pruning event), and the pruning branch
is never taken again for that k (no pruning event before or after the
unique one). -/
theorem C2_coverage_prune_once {G : Type} (A : AssemblyOps G) (opt : Opt)
    (pathIn pathOut : String) (opt1 : Opt) (gg : G) (n : Nat) (evs : List Event)
    (hok : assembleK A opt pathIn pathOut = Except.ok (opt1, gg, n, evs)) :
    evs.count Event.pruneCoverage ≤ 1 ∧
    (∀ (o : Opt) (g : G), ((removeLowCoverageContigs A o g).2).coverage = 0) ∧
    (Event.pruneCoverage ∈ evs →
      ∃ pre post, evs = pre ++ Event.pruneCoverage :: Event.wipeMarks :: post ∧
        Event.trim ∈ post ∧ Event.pruneCoverage ∉ pre ∧
        Event.pruneCoverage ∉ post) := by
  obtain ⟨L, B, he, hl, hb, _, _, _⟩ :=
    assembleK_trace A opt pathIn pathOut opt1 gg n evs hok
  have hload : Event.pruneCoverage ∉ (loadOrder pathIn opt.inFiles).map Event.load :=
    not_mem_load_map _ _ (by intro p hp; cases hp)
  have hesegm : Event.pruneCoverage ∉ eseg (optAfterCov A opt pathIn) :=
    not_mem_eseg _ _ (by intro hp; cases hp)
  have hBm : Event.pruneCoverage ∉ B := by
    rw [hb]
    by_cases hbb : 0 < opt1.bubbleLen <;> simp [hbb]
  have hc0 : ((loadOrder pathIn opt.inFiles).map Event.load).count
      Event.pruneCoverage = 0 := List.count_eq_zero.mpr hload
  have hce : (eseg (optAfterCov A opt pathIn)).count Event.pruneCoverage = 0 :=
    List.count_eq_zero.mpr hesegm
  have hcB : B.count Event.pruneCoverage = 0 := List.count_eq_zero.mpr hBm
  rcases hl with h | h
  · have hcnt : evs.count Event.pruneCoverage = 0 := by
      rw [he, h]
      simp [List.count_append, List.count_cons, hc0, hce, hcB]
    refine ⟨by simp [hcnt], fun o g => rfl, ?_⟩
    intro hmem
    exact absurd hmem (List.count_eq_zero.mp hcnt)
  · refine ⟨?_, fun o g => rfl, ?_⟩
    · rw [he, h]
      simp [List.count_append, List.count_cons, hc0, hce, hcB]
    · intro _
      refine ⟨(loadOrder pathIn opt.inFiles).map Event.load
          ++ [Event.genAdjacency] ++ eseg (optAfterCov A opt pathIn)
          ++ [Event.trim],
        eseg (optAfterCov A opt pathIn) ++ [Event.trim] ++ B
          ++ [Event.markAmbiguousEv, Event.extract], ?_, ?_, ?_, ?_⟩
      · rw [he, h]
        simp
      · simp
      · intro hm
        rcases List.mem_append.mp hm with hm | hm
        · rcases List.mem_append.mp hm with hm | hm
          · rcases List.mem_append.mp hm with hm | hm
            · exact hload hm
            · simp at hm
          · exact hesegm hm
        · simp at hm
      · intro hm
        rcases List.mem_append.mp hm with hm | hm
        · rcases List.mem_append.mp hm with hm | hm
          · rcases List.mem_append.mp hm with hm | hm
            · exact hesegm hm
            · simp at hm
          · exact hBm hm
        · simp at hm

/-- Witness for C2 at a concrete run of the driver model. -/
theorem C2_coverage_prune_once_witness :
    ([Event.load "reads.fa", Event.genAdjacency, Event.erodeTips, Event.trim,
      Event.pruneCoverage, Event.wipeMarks, Event.erodeTips, Event.trim,
      Event.popBubblesEv, Event.markAmbiguousEv, Event.extract] : List Event).count
        Event.pruneCoverage ≤ 1 ∧
    (∀ (o : Opt) (g : Unit), ((removeLowCoverageContigs unitOps o g).2).coverage = 0) ∧
    (Event.pruneCoverage ∈ ([Event.load "reads.fa", Event.genAdjacency,
        Event.erodeTips, Event.trim, Event.pruneCoverage, Event.wipeMarks,
        Event.erodeTips, Event.trim, Event.popBubblesEv, Event.markAmbiguousEv,
        Event.extract] : List Event) →
      ∃ pre post, ([Event.load "reads.fa", Event.genAdjacency, Event.erodeTips,
          Event.trim, Event.pruneCoverage, Event.wipeMarks, Event.erodeTips,
          Event.trim, Event.popBubblesEv, Event.markAmbiguousEv,
          Event.extract] : List Event) =
            pre ++ Event.pruneCoverage :: Event.wipeMarks :: post ∧
        Event.trim ∈ post ∧ Event.pruneCoverage ∉ pre ∧
        Event.pruneCoverage ∉ post) :=
  C2_coverage_prune_once unitOps optW "" "out.fa" { optW with coverage := 0 } () 1
    [Event.load "reads.fa", Event.genAdjacency, Event.erodeTips, Event.trim,
      Event.pruneCoverage, Event.wipeMarks, Event.erodeTips, Event.trim,
      Event.popBubblesEv, Event.markAmbiguousEv, Event.extract]
    unit_assembleK_eval

theorem pruneThenWipe_load_cons (p : String) (l : List Event) :
    pruneThenWipe (Event.load p :: l) = pruneThenWipe l := rfl

theorem pruneThenWipe_loads (xs : List String) (l : List Event) :
    pruneThenWipe (xs.map Event.load ++ l) = pruneThenWipe l := by
  induction xs with
  | nil => rfl
  | cons a t ih => rw [List.map_cons, List.cons_append, pruneThenWipe_load_cons, ih]

/-- Claim C7: whenever the pipeline restarts from erosion after
coverage-based pruning, both traversal mark flags are cleared first: in
every successful `assemble()` trace each pruning event is immediately
followed by the mark-wiping event (before any later pass event), and the
wipe itself (`wipeFlag(SF_MARK_SENSE | SF_MARK_ANTISENSE)`, modelled from
the spec) clears both mark bits on every node. -/
theorem C7_stale_marks_cleared {G : Type} (A : AssemblyOps G) (opt : Opt)
    (pathIn pathOut : String) (opt1 : Opt) (gg : G) (n : Nat) (evs : List Event)
    (hok : assembleK A opt pathIn pathOut = Except.ok (opt1, gg, n, evs)) :
    pruneThenWipe evs = true ∧
    (∀ g : List ModelNode, ∀ v ∈ wipeMarksModel g,
      v.markSense = false ∧ v.markAntisense = false) := by
  obtain ⟨L, B, he, hl, hb, _, _, _⟩ :=
    assembleK_trace A opt pathIn pathOut opt1 gg n evs hok
  constructor
  · rw [he]
    have hassoc : (loadOrder pathIn opt.inFiles).map Event.load
        ++ [Event.genAdjacency] ++ L ++ B ++ [Event.markAmbiguousEv, Event.extract]
        = (loadOrder pathIn opt.inFiles).map Event.load
          ++ ([Event.genAdjacency] ++ L ++ B ++ [Event.markAmbiguousEv, Event.extract]) := by
      simp
    rw [hassoc, pruneThenWipe_loads]
    by_cases herode : 0 < (optAfterCov A opt pathIn).erode <;>
      by_cases hbb : 0 < opt1.bubbleLen <;>
        rcases hl with h | h <;>
          rw [h, hb] <;> simp only [eseg, herode, hbb, if_true, if_false] <;> rfl
  · intro g v hv
    rcases List.mem_map.mp hv with ⟨w, _, hw⟩
    rw [← hw]
    exact ⟨rfl, rfl⟩

/-- Witness for C7 at a concrete run of the driver model. -/
theorem C7_stale_marks_cleared_witness :
    pruneThenWipe [Event.load "reads.fa", Event.genAdjacency, Event.erodeTips,
      Event.trim, Event.pruneCoverage, Event.wipeMarks, Event.erodeTips,
      Event.trim, Event.popBubblesEv, Event.markAmbiguousEv, Event.extract] = true ∧
    (∀ g : List ModelNode, ∀ v ∈ wipeMarksModel g,
      v.markSense = false ∧ v.markAntisense = false) :=
  C7_stale_marks_cleared unitOps optW "" "out.fa" { optW with coverage := 0 } () 1
    [Event.load "reads.fa", Event.genAdjacency, Event.erodeTips, Event.trim,
      Event.pruneCoverage, Event.wipeMarks, Event.erodeTips, Event.trim,
      Event.popBubblesEv, Event.markAmbiguousEv, Event.extract]
    unit_assembleK_eval

/-- Claim C3: an empty store after loading and shrinking makes `assemble`
fail with "no usable sequence"; a successful `assemble` never reports zero
contigs (the zero-contig case fails with "no contigs assembled"); and a
fatal error at any k terminates the whole multi-k run at that k — no
contig output is recorded for that k or any later k. -/
theorem C3_fatal_errors {G : Type} (A : AssemblyOps G) (opt : Opt)
    (pathIn pathOut : String) (ks : List Nat) (k : Nat) (e : AsmError) :
    (A.isEmpty (A.shrink (A.setDeletedKey (loadPhase A pathIn opt.inFiles))) = true →
      assembleK A opt pathIn pathOut = Except.error AsmError.noUsableSequence) ∧
    (∀ r, assembleK A opt pathIn pathOut = Except.ok r → r.2.2.1 ≠ 0) ∧
    (assembleK A (optAtK opt k) (pathInAtK opt.kMin opt.kStep k)
        (pathOutAtK opt.kMax opt.contigsPath k) = Except.error e →
      runIters A (k :: ks) opt = ([], some (k, e))) := by
  refine ⟨?_, ?_, ?_⟩
  · intro h
    unfold assembleK
    rw [if_pos h]
  · intro r hok
    obtain ⟨o1, g1, n1, evs1⟩ := r
    obtain ⟨_, _, _, _, _, _, _, hnz⟩ :=
      assembleK_trace A opt pathIn pathOut o1 g1 n1 evs1 hok
    exact hnz
  · intro h
    unfold runIters
    dsimp only []
    rw [h]

/-- Witness for C3: with an always-empty store the driver fails with
"no usable sequence" and the k = 10 iteration aborts the whole run. -/
theorem C3_fatal_errors_witness :
    assembleK emptyOps optW "" "out.fa" = Except.error AsmError.noUsableSequence ∧
    runIters emptyOps [10] optW = ([], some (10, AsmError.noUsableSequence)) :=
  ⟨(C3_fatal_errors emptyOps optW "" "out.fa" [] 10 AsmError.noUsableSequence).1 rfl,
    (C3_fatal_errors emptyOps optW "" "out.fa" [] 10 AsmError.noUsableSequence).2.2
      ((C3_fatal_errors emptyOps (optAtK optW 10) (pathInAtK optW.kMin optW.kStep 10)
        (pathOutAtK optW.kMax optW.contigsPath 10) [] 10 AsmError.noUsableSequence).1 rfl)⟩

/-- Claim C6: for every k strictly greater than kMin the driver resets the
iteration-controlled parameters before building — erosion and
erosion-strand thresholds to the automatic sentinel `(unsigned)-1`,
coverage threshold to its automatic value `-1`, trim length to k and
bubble length to `3*k` (and the k-mer size to k); for k = kMin the
user-configured values are left unchanged. -/
theorem C6_param_reset (opt : Opt) (k : Nat) :
    (opt.kMin < k →
      (optAtK opt k).erode = UINT_MAX ∧ (optAtK opt k).erodeStrand = UINT_MAX ∧
      (optAtK opt k).coverage = -1 ∧ (optAtK opt k).trimLen = k ∧
      (optAtK opt k).bubbleLen = 3 * k ∧ (optAtK opt k).kmerSize = k) ∧
    (¬ opt.kMin < k →
      (optAtK opt k).erode = opt.erode ∧
      (optAtK opt k).erodeStrand = opt.erodeStrand ∧
      (optAtK opt k).coverage = opt.coverage ∧
      (optAtK opt k).trimLen = opt.trimLen ∧
      (optAtK opt k).bubbleLen = opt.bubbleLen) := by
  constructor <;> intro h <;> simp [optAtK, h]

/-- Witness for C6 at k = 15 (reset) and k = kMin = 10 (untouched). -/
theorem C6_param_reset_witness :
    ((optAtK optW 15).erode = UINT_MAX ∧ (optAtK optW 15).erodeStrand = UINT_MAX ∧
      (optAtK optW 15).coverage = -1 ∧ (optAtK optW 15).trimLen = 15 ∧
      (optAtK optW 15).bubbleLen = 3 * 15 ∧ (optAtK optW 15).kmerSize = 15) ∧
    ((optAtK optW 10).erode = optW.erode ∧
      (optAtK optW 10).erodeStrand = optW.erodeStrand ∧
      (optAtK optW 10).coverage = optW.coverage ∧
      (optAtK optW 10).trimLen = optW.trimLen ∧
      (optAtK optW 10).bubbleLen = optW.bubbleLen) :=
  ⟨(C6_param_reset optW 15).1 (by decide),
    (C6_param_reset optW 10).2 (by decide)⟩

theorem kValues_mem (kMin kMax kStep k : Nat)
    (h : k ∈ kValues kMin kMax kStep) :
    kMin ≤ kMax ∧ 0 < kStep ∧
      ∃ i, i ≤ (kMax - kMin) / kStep ∧ k = kMin + i * kStep := by
  unfold kValues at h
  by_cases hc : kMin ≤ kMax ∧ 0 < kStep
  · rw [if_pos hc] at h
    rcases List.mem_map.mp h with ⟨i, hi, hk⟩
    refine ⟨hc.1, hc.2, i, ?_, hk.symm⟩
    have := List.mem_range.mp hi
    omega
  · rw [if_neg hc] at h
    cases h

theorem kValues_le (kMin kMax kStep k : Nat)
    (h : k ∈ kValues kMin kMax kStep) : k ≤ kMax := by
  obtain ⟨h1, h2, i, hi, hk⟩ := kValues_mem kMin kMax kStep k h
  have hmul : i * kStep ≤ ((kMax - kMin) / kStep) * kStep :=
    Nat.mul_le_mul_right kStep hi
  have hdivle : ((kMax - kMin) / kStep) * kStep ≤ kMax - kMin :=
    Nat.div_mul_le_self (kMax - kMin) kStep
  omega

theorem kMax_mem_kValues (kMin kMax kStep : Nat) (h1 : kMin ≤ kMax)
    (h2 : 0 < kStep) (hd : kStep ∣ (kMax - kMin)) :
    kMax ∈ kValues kMin kMax kStep := by
  unfold kValues
  rw [if_pos ⟨h1, h2⟩]
  refine List.mem_map.mpr ⟨(kMax - kMin) / kStep, ?_, ?_⟩
  · exact List.mem_range.mpr (by omega)
  · rw [Nat.div_mul_cancel hd]
    omega

theorem prev_mem_kValues (kMin kMax kStep k : Nat)
    (h : k ∈ kValues kMin kMax kStep) (hlt : kMin < k) :
    (k - kStep) ∈ kValues kMin kMax kStep := by
  obtain ⟨h1, h2, i, hi, hk⟩ := kValues_mem kMin kMax kStep k h
  have hipos : 0 < i := by
    rcases Nat.eq_zero_or_pos i with hz | hp
    · subst hz
      simp at hk
      omega
    · exact hp
  obtain ⟨j, rfl⟩ : ∃ j, i = j + 1 := ⟨i - 1, by omega⟩
  unfold kValues
  rw [if_pos ⟨h1, h2⟩]
  refine List.mem_map.mpr ⟨j, List.mem_range.mpr (by omega), ?_⟩
  have hsm : (j + 1) * kStep = j * kStep + kStep := by ring
  omega

theorem contigs_path_ne_empty (s : String) :
    ("contigs-k" ++ s ++ ".fa") ≠ "" := by
  intro h
  have h1 := congrArg String.length h
  rw [String.length_append, String.length_append] at h1
  have h9 : ("contigs-k" : String).length = 9 := rfl
  have h3 : (".fa" : String).length = 3 := rfl
  have h0 : ("" : String).length = 0 := rfl
  omega

/-- Claim C5: in the multi-k driver, the first iteration (k = kMin) seeds
the graph from the raw read files only; every later iteration seeds it
from the previous iteration's contig file `contigs-k<k-kStep>.fa` (loaded
first, then all raw read files), rebuilding the graph from the empty store;
iterations before kMax write `contigs-k<k>.fa` and the kMax iteration
writes the configured contigs path (kMax is visited whenever kStep divides
kMax - kMin). -/
theorem C5_multik_io (opt : Opt) (k : Nat)
    (hmem : k ∈ kValues opt.kMin opt.kMax opt.kStep) :
    (k = opt.kMin → pathInAtK opt.kMin opt.kStep k = "" ∧
      ∀ (G : Type) (A : AssemblyOps G),
        loadPhase A (pathInAtK opt.kMin opt.kStep k) opt.inFiles =
          opt.inFiles.foldl (fun acc f => A.loadSequences f acc) A.emptyGraph) ∧
    (opt.kMin < k →
      pathInAtK opt.kMin opt.kStep k =
        "contigs-k" ++ toString (k - opt.kStep) ++ ".fa" ∧
      pathInAtK opt.kMin opt.kStep k =
        pathOutAtK opt.kMax opt.contigsPath (k - opt.kStep) ∧
      (k - opt.kStep) ∈ kValues opt.kMin opt.kMax opt.kStep ∧
      ∀ (G : Type) (A : AssemblyOps G),
        loadPhase A (pathInAtK opt.kMin opt.kStep k) opt.inFiles =
          (pathInAtK opt.kMin opt.kStep k :: opt.inFiles).foldl
            (fun acc f => A.loadSequences f acc) A.emptyGraph) ∧
    (k < opt.kMax → pathOutAtK opt.kMax opt.contigsPath k =
      "contigs-k" ++ toString k ++ ".fa") ∧
    (k = opt.kMax → pathOutAtK opt.kMax opt.contigsPath k = opt.contigsPath) ∧
    k ≤ opt.kMax ∧
    (opt.kStep ∣ (opt.kMax - opt.kMin) →
      opt.kMax ∈ kValues opt.kMin opt.kMax opt.kStep) := by
  obtain ⟨hle, hstep, _, _, _⟩ := kValues_mem _ _ _ _ hmem
  have hkle : k ≤ opt.kMax := kValues_le _ _ _ _ hmem
  refine ⟨?_, ?_, ?_, ?_, hkle, ?_⟩
  · intro hk
    subst hk
    constructor
    · simp [pathInAtK]
    · intro G A
      simp [pathInAtK, loadPhase]
  · intro hlt
    have hpath : pathInAtK opt.kMin opt.kStep k =
        "contigs-k" ++ toString (k - opt.kStep) ++ ".fa" := by
      simp [pathInAtK, hlt]
    have hprevlt : k - opt.kStep < opt.kMax := by omega
    refine ⟨hpath, ?_, prev_mem_kValues _ _ _ _ hmem hlt, ?_⟩
    · rw [hpath]
      simp [pathOutAtK, hprevlt]
    · intro G A
      rw [hpath]
      rw [loadPhase, if_neg (contigs_path_ne_empty (toString (k - opt.kStep)))]
      rw [List.foldl_cons]
  · intro hk
    simp [pathOutAtK, hk]
  · intro hk
    subst hk
    simp [pathOutAtK]
  · intro hd
    exact kMax_mem_kValues _ _ _ hle hstep hd

/-- Witness for C5 at the middle iteration k = 15 of kValues 10..20 step 5. -/
theorem C5_multik_io_witness :
    (15 = optW.kMin → pathInAtK optW.kMin optW.kStep 15 = "" ∧
      ∀ (G : Type) (A : AssemblyOps G),
        loadPhase A (pathInAtK optW.kMin optW.kStep 15) optW.inFiles =
          optW.inFiles.foldl (fun acc f => A.loadSequences f acc) A.emptyGraph) ∧
    (optW.kMin < 15 →
      pathInAtK optW.kMin optW.kStep 15 =
        "contigs-k" ++ toString (15 - optW.kStep) ++ ".fa" ∧
      pathInAtK optW.kMin optW.kStep 15 =
        pathOutAtK optW.kMax optW.contigsPath (15 - optW.kStep) ∧
      (15 - optW.kStep) ∈ kValues optW.kMin optW.kMax optW.kStep ∧
      ∀ (G : Type) (A : AssemblyOps G),
        loadPhase A (pathInAtK optW.kMin optW.kStep 15) optW.inFiles =
          (pathInAtK optW.kMin optW.kStep 15 :: optW.inFiles).foldl
            (fun acc f => A.loadSequences f acc) A.emptyGraph) ∧
    (15 < optW.kMax → pathOutAtK optW.kMax optW.contigsPath 15 =
      "contigs-k" ++ toString 15 ++ ".fa") ∧
    (15 = optW.kMax → pathOutAtK optW.kMax optW.contigsPath 15 = optW.contigsPath) ∧
    15 ≤ optW.kMax ∧
    (optW.kStep ∣ (optW.kMax - optW.kMin) →
      optW.kMax ∈ kValues optW.kMin optW.kMax optW.kStep) :=
  C5_multik_io optW 15 (by decide)

theorem erodeSweep_length_lt (elig : List ModelNode → ModelNode → Bool)
    (g : List ModelNode) (hz : (erodeSweep elig g).2 ≠ 0) :
    (erodeSweep elig g).1.length < g.length := by
  simp only [erodeSweep] at hz ⊢
  have key : ∀ l : List ModelNode, (l.filter (fun v => elig g v)).length
      + (l.filter (fun v => !elig g v)).length = l.length := by
    intro l
    induction l with
    | nil => simp
    | cons a t ih =>
      by_cases ha : elig g a <;> simp [List.filter_cons, ha] <;> omega
  have hg := key g
  omega

theorem erodeEndsModel_sweep_zero (elig : List ModelNode → ModelNode → Bool) :
    ∀ (n : Nat) (g : List ModelNode), g.length ≤ n →
      (erodeSweep elig (erodeEndsModel elig g).1).2 = 0 := by
  intro n
  induction n with
  | zero =>
    intro g hg
    have hnil : g = [] := List.length_eq_zero.mp (Nat.le_zero.mp hg)
    subst hnil
    rw [erodeEndsModel]
    simp [erodeSweep]
  | succ n ih =>
    intro g hg
    by_cases hz : (erodeSweep elig g).2 = 0
    · rw [erodeEndsModel, dif_pos hz]
      exact hz
    · rw [erodeEndsModel, dif_neg hz]
      have hlt := erodeSweep_length_lt elig g hz
      exact ih (erodeSweep elig g).1 (by omega)

theorem erodeEndsModel_fixed (elig : List ModelNode → ModelNode → Bool)
    (g : List ModelNode) :
    (erodeEndsModel elig (erodeEndsModel elig g).1).2 = 0 := by
  have hz := erodeEndsModel_sweep_zero elig g.length g le_rfl
  rw [erodeEndsModel, dif_pos hz]

/-- Claim C1: running erosion to completion and then once more removes
exactly zero additional nodes — `erodeEnds` (modelled from the spec as
repeated sweeps until a sweep removes nothing, for every eligibility rule)
satisfies the fixed point, and consequently the driver's
`assert(erodeEnds(&g) == 0)` after the first `erodeEnds` call never fires
for any operations whose `erodeEnds` has the fixed-point property. -/
theorem C1_erosion_fixed_point :
    (∀ (elig : List ModelNode → ModelNode → Bool) (g : List ModelNode),
      (erodeEndsModel elig (erodeEndsModel elig g).1).2 = 0) ∧
    (∀ (G : Type) (A : AssemblyOps G),
      (∀ (o : Opt) (g : G), (A.erodeEnds o (A.erodeEnds o g).1).2 = 0) →
      ∀ (opt : Opt) (g : G),
        erodeLoop A opt g ≠ Except.error AsmError.erodeAssertFailed) := by
  constructor
  · exact fun elig g => erodeEndsModel_fixed elig g
  · intro G A hA
    have hsec : ∀ (o : Opt) (gg : G), ∃ p, erodeSection A o gg = Except.ok p := by
      intro o gg
      unfold erodeSection
      by_cases he : 0 < o.erode
      · rw [if_pos he, if_pos (hA o gg)]
        exact ⟨_, rfl⟩
      · rw [if_neg he]
        exact ⟨_, rfl⟩
    intro opt g
    obtain ⟨p, hp⟩ := hsec opt g
    by_cases hc : 0 < opt.coverage
    · rw [erodeLoop_eq_cov A opt g hc p hp, removeLowCoverageContigs_opt]
      have hcz : ¬ (0 : Rat) < ({ opt with coverage := 0 } : Opt).coverage := by simp
      obtain ⟨q, hq⟩ := hsec { opt with coverage := 0 }
        (A.cleanup (A.wipeMarkFlags
          (removeLowCoverageContigs A opt (A.cleanup (A.performTrim opt p.1))).1))
      rw [erodeLoop_eq_nocov A _ _ hcz q hq]
      simp
    · rw [erodeLoop_eq_nocov A opt g hc p hp]
      simp

/-- Witness for C1: the fixed point evaluated on a concrete graph, and the
driver's erosion loop on the node-list operations never hits the
assertion. -/
theorem C1_erosion_fixed_point_witness :
    (erodeEndsModel (fun _ v => decide (v.coverage < 2))
      (erodeEndsModel (fun _ v => decide (v.coverage < 2))
        [⟨0, 1, false, false⟩, ⟨1, 5, false, false⟩]).1).2 = 0 ∧
    erodeLoop listOps optW [⟨0, 1, false, false⟩] ≠
      Except.error AsmError.erodeAssertFailed :=
  ⟨C1_erosion_fixed_point.1 (fun _ v => decide (v.coverage < 2))
      [⟨0, 1, false, false⟩, ⟨1, 5, false, false⟩],
    C1_erosion_fixed_point.2 (List ModelNode) listOps
      (fun o g => C1_erosion_fixed_point.1 (fun _ v => decide (v.coverage < o.erode)) g)
      optW [⟨0, 1, false, false⟩]⟩

theorem popBubble_length_le (g : List ModelNode) (b : Bubble) :
    (popBubble g b).length ≤ g.length :=
  List.length_filter_le _ g

/-- Claim C4 (popBubbles modelled from the spec): bubble popping never
increases the total node count; when the two alternate paths have
different aggregate coverage the strictly lower-coverage path is the one
removed; an equal-coverage tie is resolved by the fixed deterministic rule
(the second path is removed), so the outcome is a function of the input
alone and repeated runs agree. -/
theorem C4_bubble_popping :
    (∀ (g : List ModelNode) (bs : List Bubble),
      (popBubblesModel g bs).1.length ≤ g.length) ∧
    (∀ (g : List ModelNode) (b : Bubble),
      pathCoverage b.path1 < pathCoverage b.path2 →
        popBubble g b = g.filter (fun v => !b.path1.contains v)) ∧
    (∀ (g : List ModelNode) (b : Bubble),
      pathCoverage b.path2 < pathCoverage b.path1 →
        popBubble g b = g.filter (fun v => !b.path2.contains v)) ∧
    (∀ (g : List ModelNode) (b : Bubble),
      pathCoverage b.path1 = pathCoverage b.path2 →
        popBubble g b = g.filter (fun v => !b.path2.contains v)) := by
  refine ⟨?_, ?_, ?_, ?_⟩
  · intro g bs
    unfold popBubblesModel
    induction bs generalizing g with
    | nil => exact Nat.le_refl _
    | cons b t ih =>
      calc (List.foldl popBubble g (b :: t)).length
          = (List.foldl popBubble (popBubble g b) t).length := by rw [List.foldl_cons]
        _ ≤ (popBubble g b).length := ih (popBubble g b)
        _ ≤ g.length := popBubble_length_le g b
  · intro g b hlt
    unfold popBubble loserPath
    rw [if_pos hlt]
  · intro g b hlt
    unfold popBubble loserPath
    rw [if_neg (by omega)]
  · intro g b heq
    unfold popBubble loserPath
    rw [if_neg (by omega)]

/-- Witness for C4 on a concrete two-node graph and a concrete bubble. -/
theorem C4_bubble_popping_witness :
    (popBubblesModel [(⟨0, 1, false, false⟩ : ModelNode), ⟨1, 5, false, false⟩]
        [⟨[⟨0, 1, false, false⟩], [⟨1, 5, false, false⟩]⟩]).1.length ≤ 2 ∧
    popBubble [(⟨0, 1, false, false⟩ : ModelNode), ⟨1, 5, false, false⟩]
        ⟨[⟨1, 5, false, false⟩], [⟨0, 1, false, false⟩]⟩ =
      ([(⟨0, 1, false, false⟩ : ModelNode), ⟨1, 5, false, false⟩]).filter
        (fun v => !([(⟨0, 1, false, false⟩ : ModelNode)]).contains v) :=
  ⟨C4_bubble_popping.1 [⟨0, 1, false, false⟩, ⟨1, 5, false, false⟩]
      [⟨[⟨0, 1, false, false⟩], [⟨1, 5, false, false⟩]⟩],
    C4_bubble_popping.2.2.1 [⟨0, 1, false, false⟩, ⟨1, 5, false, false⟩]
      ⟨[⟨1, 5, false, false⟩], [⟨0, 1, false, false⟩]⟩ (by decide)⟩

theorem copyInto_length (src : List Char) : ∀ (dst : List Char) (start : Nat),
    (copyInto dst start src).length = dst.length := by
  induction src with
  | nil => intro dst start; rfl
  | cons c cs ih =>
    intro dst start
    rw [copyInto, ih, List.length_set]

theorem mergeLoop_length (seq1 qual1 rc2 rcq2 : List Char) (ol : Nat) :
    ∀ (n : Nat) (acc : List Char × List Char),
      (mergeLoop seq1 qual1 rc2 rcq2 ol n acc).1.length = acc.1.length ∧
      (mergeLoop seq1 qual1 rc2 rcq2 ol n acc).2.length = acc.2.length := by
  intro n
  induction n with
  | zero => intro acc; exact ⟨rfl, rfl⟩
  | succ n ih =>
    intro acc
    obtain ⟨ih1, ih2⟩ := ih acc
    rw [mergeLoop]
    unfold mergeStep
    by_cases hab : seq1.getD (seq1.length - ol + n) 'N' = rc2.getD n 'N'
    · rw [if_pos hab]
      exact ⟨by rw [List.length_set, ih1], by rw [List.length_set, ih2]⟩
    · rw [if_neg hab]
      exact ⟨by rw [List.length_set, ih1], by rw [List.length_set, ih2]⟩

theorem mergeLoop_getD (seq1 qual1 rc2 rcq2 : List Char) (ol : Nat)
    (hol : ol ≤ seq1.length) (i : Nat) (hi : i < ol) :
    ∀ (n : Nat) (acc : List Char × List Char), i < n → n ≤ ol →
      seq1.length ≤ acc.1.length → seq1.length ≤ acc.2.length →
      (mergeLoop seq1 qual1 rc2 rcq2 ol n acc).1.getD (seq1.length - ol + i) 'N' =
        (if seq1.getD (seq1.length - ol + i) 'N' = rc2.getD i 'N'
          then seq1.getD (seq1.length - ol + i) 'N'
          else bestBase (seq1.getD (seq1.length - ol + i) 'N') (rc2.getD i 'N')
            (qual1.getD (seq1.length - ol + i) '#') (rcq2.getD i '#')) ∧
      (mergeLoop seq1 qual1 rc2 rcq2 ol n acc).2.getD (seq1.length - ol + i) '#' =
        (if seq1.getD (seq1.length - ol + i) 'N' = rc2.getD i 'N'
          then stdMax (qual1.getD (seq1.length - ol + i) '#') (rcq2.getD i '#')
          else stdMin (qual1.getD (seq1.length - ol + i) '#') (rcq2.getD i '#')) := by
  intro n
  induction n with
  | zero =>
    intro acc hin _ _ _
    exact absurd hin (Nat.not_lt_zero i)
  | succ n ih =>
    intro acc hin hnol hl1 hl2
    obtain ⟨hml1, hml2⟩ := mergeLoop_length seq1 qual1 rc2 rcq2 ol n acc
    have hiol : i ≤ seq1.length - ol + i := Nat.le_add_left i (seq1.length - ol)
    by_cases hieq : i = n
    · subst hieq
      have hposlt1 : seq1.length - ol + i <
          (mergeLoop seq1 qual1 rc2 rcq2 ol i acc).1.length := by
        rw [hml1]
        omega
      have hposlt2 : seq1.length - ol + i <
          (mergeLoop seq1 qual1 rc2 rcq2 ol i acc).2.length := by
        rw [hml2]
        omega
      rw [mergeLoop]
      unfold mergeStep
      by_cases hab : seq1.getD (seq1.length - ol + i) 'N' = rc2.getD i 'N'
      · rw [if_pos hab, if_pos hab, if_pos hab]
        constructor
        · rw [List.getD_eq_getElem?_getD,
            List.getElem?_set_eq_of_lt _ hposlt1]
          rfl
        · rw [List.getD_eq_getElem?_getD,
            List.getElem?_set_eq_of_lt _ hposlt2]
          rfl
      · rw [if_neg hab, if_neg hab, if_neg hab]
        constructor
        · rw [List.getD_eq_getElem?_getD,
            List.getElem?_set_eq_of_lt _ hposlt1]
          rfl
        · rw [List.getD_eq_getElem?_getD,
            List.getElem?_set_eq_of_lt _ hposlt2]
          rfl
    · have hin' : i < n := by omega
      have hne : seq1.length - ol + n ≠ seq1.length - ol + i := by omega
      have hrec := ih acc hin' (by omega) hl1 hl2
      rw [mergeLoop]
      unfold mergeStep
      by_cases hab : seq1.getD (seq1.length - ol + n) 'N' = rc2.getD n 'N'
      · rw [if_pos hab]
        constructor
        · rw [List.getD_eq_getElem?_getD, List.getElem?_set_ne hne,
            ← List.getD_eq_getElem?_getD]
          exact hrec.1
        · rw [List.getD_eq_getElem?_getD, List.getElem?_set_ne hne,
            ← List.getD_eq_getElem?_getD]
          exact hrec.2
      · rw [if_neg hab]
        constructor
        · rw [List.getD_eq_getElem?_getD, List.getElem?_set_ne hne,
            ← List.getD_eq_getElem?_getD]
          exact hrec.1
        · rw [List.getD_eq_getElem?_getD, List.getElem?_set_ne hne,
            ← List.getD_eq_getElem?_getD]
          exact hrec.2

/-- Claim C9: inside the overlap of a gapless overlap alignment (read 2
taken reverse-complemented, with reversed qualities), `mergeReads` emits
the common base with the maximum of the two qualities when the bases
agree; when they disagree it emits `bestBase` — the base with strictly
higher quality, read 2's base on a quality tie — with the minimum of the
two qualities. -/
theorem C9_merge_overlap (overlap : OverlapAlign) (rec1 rec2 : FastqRecord) (i : Nat)
    (ht : overlap.overlap_t_pos + overlap.len = rec1.seq.length)
    (hh : overlap.overlap_h_pos + 1 = overlap.len)
    (h2 : overlap.len ≤ rec2.seq.length)
    (hq1 : rec1.qual.length = rec1.seq.length)
    (hq2 : rec2.qual.length = rec2.seq.length)
    (hi : i < overlap.len) :
    (rec1.seq.getD (rec1.seq.length - overlap.len + i) 'N' =
        (reverseComplement rec2.seq).getD i 'N' →
      (mergeReads overlap rec1 rec2).seq.getD
          (rec1.seq.length - overlap.len + i) 'N' =
        rec1.seq.getD (rec1.seq.length - overlap.len + i) 'N' ∧
      (mergeReads overlap rec1 rec2).qual.getD
          (rec1.seq.length - overlap.len + i) '#' =
        stdMax (rec1.qual.getD (rec1.seq.length - overlap.len + i) '#')
          (rec2.qual.reverse.getD i '#')) ∧
    (rec1.seq.getD (rec1.seq.length - overlap.len + i) 'N' ≠
        (reverseComplement rec2.seq).getD i 'N' →
      (mergeReads overlap rec1 rec2).seq.getD
          (rec1.seq.length - overlap.len + i) 'N' =
        bestBase (rec1.seq.getD (rec1.seq.length - overlap.len + i) 'N')
          ((reverseComplement rec2.seq).getD i 'N')
          (rec1.qual.getD (rec1.seq.length - overlap.len + i) '#')
          (rec2.qual.reverse.getD i '#') ∧
      (mergeReads overlap rec1 rec2).qual.getD
          (rec1.seq.length - overlap.len + i) '#' =
        stdMin (rec1.qual.getD (rec1.seq.length - overlap.len + i) '#')
          (rec2.qual.reverse.getD i '#')) ∧
    (∀ a b qa qb : Char, qb < qa → bestBase a b qa qb = a) ∧
    (∀ a b qa qb : Char, qa < qb → bestBase a b qa qb = b) ∧
    (∀ a b qa qb : Char, qa = qb → bestBase a b qa qb = b) := by
  have hol : overlap.len ≤ rec1.seq.length := by omega
  have hrc : (reverseComplement rec2.seq).length = rec2.seq.length := by
    simp [reverseComplement]
  set OUT := overlap.overlap_t_pos + overlap.len
      + (reverseComplement rec2.seq).length - overlap.overlap_h_pos - 1 with hOUT
  set A1 := copyInto (copyInto (List.replicate OUT 'N') 0
      (rec1.seq.take overlap.overlap_t_pos))
      (overlap.overlap_t_pos + overlap.len)
      ((reverseComplement rec2.seq).drop (overlap.overlap_h_pos + 1)) with hA1
  set A2 := copyInto (copyInto (List.replicate OUT '#') 0
      (rec1.qual.take overlap.overlap_t_pos))
      rec1.seq.length (rec2.qual.reverse.drop overlap.len) with hA2
  have hlen1 : A1.length = OUT := by
    rw [hA1, copyInto_length, copyInto_length, List.length_replicate]
  have hlen2 : A2.length = OUT := by
    rw [hA2, copyInto_length, copyInto_length, List.length_replicate]
  have hOUTge : rec1.seq.length ≤ OUT := by
    rw [hOUT, hrc]
    omega
  have hs := mergeLoop_getD rec1.seq rec1.qual (reverseComplement rec2.seq)
      rec2.qual.reverse overlap.len hol i hi overlap.len (A1, A2) hi le_rfl
      (by rw [hlen1]; exact hOUTge) (by rw [hlen2]; exact hOUTge)
  have hms : (mergeReads overlap rec1 rec2).seq =
      (mergeLoop rec1.seq rec1.qual (reverseComplement rec2.seq)
        rec2.qual.reverse overlap.len overlap.len (A1, A2)).1 := rfl
  have hmq : (mergeReads overlap rec1 rec2).qual =
      (mergeLoop rec1.seq rec1.qual (reverseComplement rec2.seq)
        rec2.qual.reverse overlap.len overlap.len (A1, A2)).2 := rfl
  refine ⟨?_, ?_, ?_, ?_, ?_⟩
  · intro hab
    constructor
    · rw [hms, hs.1, if_pos hab]
    · rw [hmq, hs.2, if_pos hab]
  · intro hab
    constructor
    · rw [hms, hs.1, if_neg hab]
    · rw [hmq, hs.2, if_neg hab]
  · intro a b qa qb h
    unfold bestBase
    rw [if_pos h]
  · intro a b qa qb h
    unfold bestBase
    rw [if_neg (lt_asymm h)]
  · intro a b qa qb h
    unfold bestBase
    rw [if_neg (by rw [h]; exact lt_irrefl qb)]

/-- Witness for C9: merging the concrete pair r1 = AC (quals BD) and
r2 = GT (quals EF) with a full-length gapless overlap; at overlap
position 0 the bases agree ('A') and the merged quality is the larger
quality 'F'. -/
theorem C9_merge_overlap_witness :
    (mergeReads (⟨0, 1, 2, 2⟩ : OverlapAlign)
        (⟨"r1", "", ['A', 'C'], ['B', 'D']⟩ : FastqRecord)
        (⟨"r2", "", ['G', 'T'], ['E', 'F']⟩ : FastqRecord)).seq.getD 0 'N' = 'A' ∧
    (mergeReads (⟨0, 1, 2, 2⟩ : OverlapAlign)
        (⟨"r1", "", ['A', 'C'], ['B', 'D']⟩ : FastqRecord)
        (⟨"r2", "", ['G', 'T'], ['E', 'F']⟩ : FastqRecord)).qual.getD 0 '#' = 'F' := by
  have h := (C9_merge_overlap (⟨0, 1, 2, 2⟩ : OverlapAlign)
      (⟨"r1", "", ['A', 'C'], ['B', 'D']⟩ : FastqRecord)
      (⟨"r2", "", ['G', 'T'], ['E', 'F']⟩ : FastqRecord) 0
      (by decide) (by decide) (by decide) (by decide) (by decide) (by decide)).1
      (by decide)
  exact ⟨h.1.trans (by decide), h.2.trans (by decide)⟩

theorem filterAlignments_fst (m : Nat) (idq : Rat) (s : List Char)
    (ovs : List OverlapAlign) :
    (filterAlignments m idq s ovs).1 =
      ((ovs.filter (fun o => !decide (o.overlap_match < m))).filter
        (fun o => !decide (o.pid < idq))).filter (fun o => isGapless o s) := by
  unfold filterAlignments
  by_cases h0 : ovs.isEmpty
  · rw [if_pos h0]
    rw [List.isEmpty_iff.mp h0]
    rfl
  · rw [if_neg h0]
    dsimp only []
    by_cases h1 : (ovs.filter (fun o => !decide (o.overlap_match < m))).isEmpty
    · rw [if_pos h1]
      rw [List.isEmpty_iff.mp h1]
      rfl
    · rw [if_neg h1]
      by_cases hp : ((ovs.filter (fun o => !decide (o.overlap_match < m))).filter
          (fun o => !decide (o.pid < idq))).isEmpty
      · rw [if_pos hp]
        rw [List.isEmpty_iff.mp hp]
        rfl
      · rw [if_neg hp]
        by_cases hg : (((ovs.filter (fun o => !decide (o.overlap_match < m))).filter
            (fun o => !decide (o.pid < idq))).filter (fun o => isGapless o s)).isEmpty
        · rw [if_pos hg]
        · rw [if_neg hg]

theorem filterAlignments_snd (m : Nat) (idq : Rat) (s : List Char)
    (ovs : List OverlapAlign) :
    (filterAlignments m idq s ovs).2 =
      (if ovs.isEmpty then some FilterStage.no_alignment
        else if (ovs.filter (fun o => !decide (o.overlap_match < m))).isEmpty
          then some FilterStage.low_matches
        else if ((ovs.filter (fun o => !decide (o.overlap_match < m))).filter
            (fun o => !decide (o.pid < idq))).isEmpty
          then some FilterStage.pid_low
        else if (((ovs.filter (fun o => !decide (o.overlap_match < m))).filter
            (fun o => !decide (o.pid < idq))).filter (fun o => isGapless o s)).isEmpty
          then some FilterStage.has_indel
        else none) := by
  unfold filterAlignments
  by_cases h0 : ovs.isEmpty
  · rw [if_pos h0, if_pos h0]
  · rw [if_neg h0, if_neg h0]
    dsimp only []
    by_cases h1 : (ovs.filter (fun o => !decide (o.overlap_match < m))).isEmpty
    · rw [if_pos h1, if_pos h1]
    · rw [if_neg h1, if_neg h1]
      by_cases hp : ((ovs.filter (fun o => !decide (o.overlap_match < m))).filter
          (fun o => !decide (o.pid < idq))).isEmpty
      · rw [if_pos hp, if_pos hp]
      · rw [if_neg hp, if_neg hp]
        by_cases hg : (((ovs.filter (fun o => !decide (o.overlap_match < m))).filter
            (fun o => !decide (o.pid < idq))).filter (fun o => isGapless o s)).isEmpty
        · rw [if_pos hg, if_pos hg]
        · rw [if_neg hg, if_neg hg]

theorem bumpStage_counters (fr : Option FilterStage) (s : Stats) :
    (bumpStage fr s).no_alignment =
      s.no_alignment + (if fr = some FilterStage.no_alignment then 1 else 0) ∧
    (bumpStage fr s).low_matches =
      s.low_matches + (if fr = some FilterStage.low_matches then 1 else 0) ∧
    (bumpStage fr s).pid_low =
      s.pid_low + (if fr = some FilterStage.pid_low then 1 else 0) ∧
    (bumpStage fr s).has_indel =
      s.has_indel + (if fr = some FilterStage.has_indel then 1 else 0) := by
  rcases fr with _ | stage
  · simp [bumpStage]
  · cases stage <;> simp [bumpStage]

theorem processPair_stage_counters (m : Nat) (idq : Rat)
    (rec1 rec2 : FastqRecord) (ovs : List OverlapAlign) (st : Stats) :
    (processPair m idq rec1 rec2 ovs st).2.no_alignment =
      st.no_alignment + (if (filterAlignments m idq rec1.seq ovs).2 =
        some FilterStage.no_alignment then 1 else 0) ∧
    (processPair m idq rec1 rec2 ovs st).2.low_matches =
      st.low_matches + (if (filterAlignments m idq rec1.seq ovs).2 =
        some FilterStage.low_matches then 1 else 0) ∧
    (processPair m idq rec1 rec2 ovs st).2.pid_low =
      st.pid_low + (if (filterAlignments m idq rec1.seq ovs).2 =
        some FilterStage.pid_low then 1 else 0) ∧
    (processPair m idq rec1 rec2 ovs st).2.has_indel =
      st.has_indel + (if (filterAlignments m idq rec1.seq ovs).2 =
        some FilterStage.has_indel then 1 else 0) := by
  obtain ⟨b1, b2, b3, b4⟩ := bumpStage_counters (filterAlignments m idq rec1.seq ovs).2
    { st with total_reads := st.total_reads + 1 }
  unfold processPair
  dsimp only []
  by_cases h1 : (filterAlignments m idq rec1.seq ovs).1.length = 1
  · rw [if_pos h1]
    exact ⟨b1, b2, b3, b4⟩
  · rw [if_neg h1]
    by_cases h2 : 1 < (filterAlignments m idq rec1.seq ovs).1.length
    · rw [if_pos h2]
      exact ⟨b1, b2, b3, b4⟩
    · rw [if_neg h2]
      exact ⟨b1, b2, b3, b4⟩

/-- Claim C10: a read pair goes to the merged output exactly when, after
discarding in order the alignments with too few matches, then those below
the identity threshold, then those with indels, exactly one alignment
remains; otherwise both reads go unchanged to the two unmerged outputs;
and the statistics counter of the stage at which the candidate set first
became empty — and only that stage counter — is incremented. -/
theorem C10_merge_decision (m : Nat) (idq : Rat) (rec1 rec2 : FastqRecord)
    (ovs : List OverlapAlign) (st : Stats) :
    (filterAlignments m idq rec1.seq ovs).1 =
      ((ovs.filter (fun o => !decide (o.overlap_match < m))).filter
        (fun o => !decide (o.pid < idq))).filter (fun o => isGapless o rec1.seq) ∧
    ((∃ r, (processPair m idq rec1 rec2 ovs st).1 = PairOutput.merged r) ↔
      (filterAlignments m idq rec1.seq ovs).1.length = 1) ∧
    ((filterAlignments m idq rec1.seq ovs).1.length ≠ 1 →
      (processPair m idq rec1 rec2 ovs st).1 = PairOutput.unmerged rec1 rec2) ∧
    (filterAlignments m idq rec1.seq ovs).2 =
      (if ovs.isEmpty then some FilterStage.no_alignment
        else if (ovs.filter (fun o => !decide (o.overlap_match < m))).isEmpty
          then some FilterStage.low_matches
        else if ((ovs.filter (fun o => !decide (o.overlap_match < m))).filter
            (fun o => !decide (o.pid < idq))).isEmpty
          then some FilterStage.pid_low
        else if (((ovs.filter (fun o => !decide (o.overlap_match < m))).filter
            (fun o => !decide (o.pid < idq))).filter
              (fun o => isGapless o rec1.seq)).isEmpty
          then some FilterStage.has_indel
        else none) ∧
    ((processPair m idq rec1 rec2 ovs st).2.no_alignment =
      st.no_alignment + (if (filterAlignments m idq rec1.seq ovs).2 =
        some FilterStage.no_alignment then 1 else 0) ∧
    (processPair m idq rec1 rec2 ovs st).2.low_matches =
      st.low_matches + (if (filterAlignments m idq rec1.seq ovs).2 =
        some FilterStage.low_matches then 1 else 0) ∧
    (processPair m idq rec1 rec2 ovs st).2.pid_low =
      st.pid_low + (if (filterAlignments m idq rec1.seq ovs).2 =
        some FilterStage.pid_low then 1 else 0) ∧
    (processPair m idq rec1 rec2 ovs st).2.has_indel =
      st.has_indel + (if (filterAlignments m idq rec1.seq ovs).2 =
        some FilterStage.has_indel then 1 else 0)) := by
  refine ⟨filterAlignments_fst m idq rec1.seq ovs, ?_, ?_,
    filterAlignments_snd m idq rec1.seq ovs,
    processPair_stage_counters m idq rec1 rec2 ovs st⟩
  · unfold processPair
    dsimp only []
    by_cases h1 : (filterAlignments m idq rec1.seq ovs).1.length = 1
    · rw [if_pos h1]
      exact ⟨fun _ => h1, fun _ => ⟨_, rfl⟩⟩
    · rw [if_neg h1]
      constructor
      · intro hex
        rcases hex with ⟨r, hr⟩
        cases hr
      · intro h
        exact absurd h h1
  · intro hne
    unfold processPair
    dsimp only []
    rw [if_neg hne]

/-- Witness for C10: a single candidate overlap that survives all three
filters yields a merged pair, and no failure-stage counter moves. -/
theorem C10_merge_decision_witness :
    (∃ r, (processPair 1 (9/10) (⟨"r1", "", ['A', 'C'], ['B', 'D']⟩ : FastqRecord)
        (⟨"r2", "", ['G', 'T'], ['E', 'F']⟩ : FastqRecord)
        [(⟨0, 1, 2, 2⟩ : OverlapAlign)] initStats).1 = PairOutput.merged r) ∧
    (processPair 1 (9/10) (⟨"r1", "", ['A', 'C'], ['B', 'D']⟩ : FastqRecord)
        (⟨"r2", "", ['G', 'T'], ['E', 'F']⟩ : FastqRecord)
        [(⟨0, 1, 2, 2⟩ : OverlapAlign)] initStats).2.no_alignment =
      initStats.no_alignment :=
  ⟨(C10_merge_decision 1 (9/10) ⟨"r1", "", ['A', 'C'], ['B', 'D']⟩
      ⟨"r2", "", ['G', 'T'], ['E', 'F']⟩ [⟨0, 1, 2, 2⟩] initStats).2.1.mpr
        (by norm_num [filterAlignments, OverlapAlign.pid, isGapless, List.filter]),
    ((C10_merge_decision 1 (9/10) ⟨"r1", "", ['A', 'C'], ['B', 'D']⟩
      ⟨"r2", "", ['G', 'T'], ['E', 'F']⟩ [⟨0, 1, 2, 2⟩] initStats).2.2.2.2.1).trans
        (by
          norm_num [filterAlignments, OverlapAlign.pid, isGapless, List.filter]
          simp)⟩
